import Mathlib

/-!
Shallow embedding of `homie-controller/src/types.rs`: the Homie device data
model (`State`, `Datatype`, `Property`, `Node`, `Extension`, `Device`), its
string parsers and the completeness predicates, together with theorems
checking the specification's claims about them.

Modelling conventions:
- Rust `&str` / `String` is Lean `String` where only whole-string equality
  matters (`State`/`Datatype` parsing), and `List Char` where the code splits
  and strips strings character-wise (`Extension` parsing).
- Rust `HashMap<String, V>` is an association list `List (String × V)`;
  `values()` is the list of second components, `is_empty` is emptiness of the
  list, and iteration order is irrelevant to every predicate modelled here
  (they are all `all`-quantified).
- Rust `Result<T, E>` is `Except E T`, `Option<T>` is `Option T`.
- `std::time::Duration` carries no structure used by any claim; it is
  modelled as a pair of naturals (seconds, nanoseconds). `f64` fields are
  never inspected; they are modelled by an opaque-free one-field structure
  over `Float` kept inside `Option` and never compared.
-/

/-- Alias for Lean's string type, needed where a constructor named `String`
would otherwise shadow it inside a namespace. -/
abbrev Str := String

namespace Homie

/-- Embedding of `State` from `types.rs`: the Homie device lifecycle state, plus the
controller-internal `Unknown`. -/
inductive State where
  | Unknown
  | Init
  | Ready
  | Disconnected
  | Sleeping
  | Lost
  | Alert
deriving DecidableEq, Repr

/-- Embedding of `State::as_str`. -/
def State.as_str : State → String
  | .Unknown => "unknown"
  | .Init => "init"
  | .Ready => "ready"
  | .Disconnected => "disconnected"
  | .Sleeping => "sleeping"
  | .Lost => "lost"
  | .Alert => "alert"

/-- Embedding of `ParseStateError(String)`: the error of `State::from_str`, carrying the
offending input. -/
structure ParseStateError where
  str : String
deriving DecidableEq, Repr

/-- Embedding of `impl FromStr for State`: match on the six literal lifecycle tokens,
otherwise an error holding the input. -/
def State.from_str (s : String) : Except ParseStateError State :=
  if s = "init" then .ok .Init
  else if s = "ready" then .ok .Ready
  else if s = "disconnected" then .ok .Disconnected
  else if s = "sleeping" then .ok .Sleeping
  else if s = "lost" then .ok .Lost
  else if s = "alert" then .ok .Alert
  else .error ⟨s⟩

/-- Embedding of `Datatype` from `types.rs`: the closed six-variant property datatype. -/
inductive Datatype where
  | Integer
  | Float
  | Boolean
  | String
  | Enum
  | Color
deriving DecidableEq, Repr

/-- Embedding of `ParseDatatypeError(String)`: the error of `Datatype::from_str`. -/
structure ParseDatatypeError where
  str : String
deriving DecidableEq, Repr

/-- Embedding of `impl FromStr for Datatype`: match on the six literal datatype tokens,
otherwise an error holding the input. -/
def Datatype.from_str (s : Str) : Except ParseDatatypeError Datatype :=
  if s = "integer" then .ok .Integer
  else if s = "float" then .ok .Float
  else if s = "boolean" then .ok .Boolean
  else if s = "string" then .ok .String
  else if s = "enum" then .ok .Enum
  else if s = "color" then .ok .Color
  else .error ⟨s⟩

/-- Embedding of `std::time::Duration`: seconds and nanoseconds. No claim inspects its
contents. -/
structure Duration where
  secs : Nat
  nanos : Nat
deriving DecidableEq, Repr

/-- Rust `f64`. No claim inspects or compares its contents; it only ever
occurs inside `Option` fields that the claims require to be `none`. -/
structure F64 where
  val : Float

/-- Embedding of `Property` from `types.rs`. -/
structure Property where
  id : String
  name : Option String
  datatype : Option Datatype
  settable : Bool
  retained : Bool
  unit : Option String
  format : Option String
  value : Option String

/-- Embedding of `Property::new(id)`. -/
def Property.new (id : String) : Property :=
  { id := id
    name := none
    datatype := none
    settable := false
    retained := true
    unit := none
    format := none
    value := none }

/-- Embedding of `Property::has_required_attributes`. -/
def Property.has_required_attributes (p : Property) : Bool :=
  p.name.isSome && p.datatype.isSome

/-- The model of `HashMap<String, V>`: an association list. -/
abbrev HMap (V : Type) : Type := List (String × V)

/-- Embedding of `HashMap::new()`. -/
def HMap.new {V : Type} : HMap V := []

/-- Embedding of `HashMap::values()`, as the list of mapped values. -/
def HMap.values {V : Type} (m : HMap V) : List V := List.map Prod.snd m

/-- Embedding of `HashMap::is_empty()`. -/
def HMap.is_empty {V : Type} (m : HMap V) : Bool :=
  match m with
  | [] => true
  | _ :: _ => false

/-- Embedding of `HashMap::insert(k, v)`: replace the entry at `k` if present, otherwise
add one. -/
def HMap.insert {V : Type} (k : String) (v : V) (m : HMap V) : HMap V :=
  match m with
  | [] => [(k, v)]
  | (k', v') :: rest =>
      if k' = k then (k, v) :: rest else (k', v') :: HMap.insert k v rest

/-- Embedding of `Node` from `types.rs`. -/
structure Node where
  id : String
  name : Option String
  node_type : Option String
  properties : HMap Property

/-- Embedding of `Node::new(id)`. -/
def Node.new (id : String) : Node :=
  { id := id
    name := none
    node_type := none
    properties := HMap.new }

/-- Embedding of `Node::has_required_attributes`: name and type set, at least one
property, and all properties complete. -/
def Node.has_required_attributes (n : Node) : Bool :=
  n.name.isSome && n.node_type.isSome && !n.properties.is_empty &&
    n.properties.values.all (fun property => property.has_required_attributes)

/-- Embedding of `Extension` from `types.rs`. Strings are modelled as `List Char` here
because the parser splits and strips them character-wise. -/
structure Extension where
  id : List Char
  version : List Char
  homie_versions : List (List Char)
deriving DecidableEq, Repr

/-- Embedding of `ParseExtensionError(String)`: the error of `Extension::from_str`. -/
structure ParseExtensionError where
  str : List Char
deriving DecidableEq, Repr

/-- Rust `str::split(c)` on a character pattern: splitting always yields at
least one (possibly empty) segment. -/
def splitChar (c : Char) : List Char → List (List Char)
  | [] => [[]]
  | x :: xs =>
      if x = c then [] :: splitChar c xs
      else
        match splitChar c xs with
        | [] => [[x]]
        | r :: rs => (x :: r) :: rs

/-- Joining with a single-character separator, the inverse of `splitChar`. -/
def joinChar (c : Char) : List (List Char) → List Char
  | [] => []
  | [r] => r
  | r :: rs => r ++ c :: joinChar c rs

/-- Rust `str::strip_prefix` for a one-character pattern. -/
def stripPrefixChar (c : Char) : List Char → Option (List Char)
  | [] => none
  | x :: xs => if x = c then some xs else none

/-- Rust `str::strip_suffix` for a one-character pattern. -/
def stripSuffixChar (c : Char) (s : List Char) : Option (List Char) :=
  (stripPrefixChar c s.reverse).map List.reverse

/-- Embedding of `impl FromStr for Extension`: split on `:` into exactly three parts,
strip `[` and `]` from the third, split the interior on `;`. -/
def Extension.from_str (s : List Char) : Except ParseExtensionError Extension :=
  match splitChar ':' s with
  | [id, version, homie_versions] =>
      match stripPrefixChar '[' homie_versions with
      | some homie_versions1 =>
          match stripSuffixChar ']' homie_versions1 with
          | some homie_versions2 =>
              .ok { id := id, version := version
                    homie_versions := splitChar ';' homie_versions2 }
          | none => .error ⟨s⟩
      | none => .error ⟨s⟩
  | _ => .error ⟨s⟩

/-- Embedding of `Device` from `types.rs`. -/
structure Device where
  id : String
  homie_version : String
  name : Option String
  state : State
  implementation : Option String
  nodes : HMap Node
  extensions : List Extension
  local_ip : Option String
  mac : Option String
  firmware_name : Option String
  firmware_version : Option String
  stats_interval : Option Duration
  stats_uptime : Option Duration
  stats_signal : Option Int
  stats_cputemp : Option F64
  stats_cpuload : Option Int
  stats_battery : Option Int
  stats_freeheap : Option Nat
  stats_supply : Option F64

/-- Embedding of `Device::new(id, homie_version)`. -/
def Device.new (id : String) (homie_version : String) : Device :=
  { id := id
    homie_version := homie_version
    name := none
    state := State.Unknown
    implementation := none
    nodes := HMap.new
    extensions := []
    local_ip := none
    mac := none
    firmware_name := none
    firmware_version := none
    stats_interval := none
    stats_uptime := none
    stats_signal := none
    stats_cputemp := none
    stats_cpuload := none
    stats_battery := none
    stats_freeheap := none
    stats_supply := none }

/-- Embedding of `Device::has_required_attributes`: name set, state known, and all nodes
complete. -/
def Device.has_required_attributes (d : Device) : Bool :=
  d.name.isSome && d.state != State.Unknown &&
    d.nodes.values.all (fun node => node.has_required_attributes)

/-! ### Helper lemmas about the string and map primitives -/

/-- Splitting never yields the empty list of segments. -/
theorem splitChar_ne_nil (c : Char) (s : List Char) : splitChar c s ≠ [] := by
  induction s with
  | nil => simp [splitChar]
  | cons x xs ih =>
      simp only [splitChar]
      split
      · simp
      · split
        · simp
        · simp

/-- Joining the segments of a split with the same separator recovers the
original string. -/
theorem joinChar_splitChar (c : Char) (s : List Char) :
    joinChar c (splitChar c s) = s := by
  induction s with
  | nil => rfl
  | cons x xs ih =>
      simp only [splitChar]
      split
      · rename_i hx
        subst hx
        rcases h : splitChar x xs with _ | ⟨r, rs⟩
        · exact absurd h (splitChar_ne_nil x xs)
        · rw [h] at ih
          simp [joinChar, ih]
      · rcases h : splitChar c xs with _ | ⟨r, rs⟩
        · exact absurd h (splitChar_ne_nil c xs)
        · rw [h] at ih
          rcases rs with _ | ⟨r2, rs2⟩
          · simp only [joinChar] at ih ⊢
            rw [ih]
          · simp only [joinChar] at ih ⊢
            rw [List.cons_append, ih]

/-- Splitting a string that does not contain the separator yields the string
as the only segment. -/
theorem splitChar_of_not_mem {c : Char} {s : List Char} (h : c ∉ s) :
    splitChar c s = [s] := by
  induction s with
  | nil => rfl
  | cons x xs ih =>
      simp only [List.mem_cons, not_or] at h
      simp only [splitChar]
      rw [if_neg (fun hx : x = c => h.1 hx.symm)]
      rw [ih h.2]

/-- Splitting distributes over the first separator occurrence when the left
part is separator-free. -/
theorem splitChar_append {c : Char} {a : List Char} (b : List Char)
    (h : c ∉ a) : splitChar c (a ++ c :: b) = a :: splitChar c b := by
  induction a with
  | nil => simp [splitChar]
  | cons x xs ih =>
      simp only [List.mem_cons, not_or] at h
      simp only [List.cons_append, splitChar]
      rw [if_neg (fun hx : x = c => h.1 hx.symm)]
      rw [List.append_eq, ih h.2]

/-- Characterisation of a successful one-character prefix strip. -/
theorem stripPrefixChar_eq_some {c : Char} {s t : List Char}
    (h : stripPrefixChar c s = some t) : s = c :: t := by
  cases s with
  | nil => simp [stripPrefixChar] at h
  | cons x xs =>
      simp only [stripPrefixChar] at h
      split at h
      · rename_i hx
        cases h
        rw [hx]
      · cases h

/-- Characterisation of a successful one-character suffix strip. -/
theorem stripSuffixChar_eq_some {c : Char} {s t : List Char}
    (h : stripSuffixChar c s = some t) : s = t ++ [c] := by
  simp only [stripSuffixChar, Option.map_eq_some'] at h
  obtain ⟨u, hu, hrev⟩ := h
  have hs : s.reverse = c :: u := stripPrefixChar_eq_some hu
  have hss : s = (c :: u).reverse := by
    rw [← hs, List.reverse_reverse]
  rw [hss, List.reverse_cons, hrev]

/-- The value just inserted is among the map's values. -/
theorem HMap.mem_values_insert {V : Type} (m : HMap V) (k : String) (v : V) :
    v ∈ (HMap.insert k v m).values := by
  induction m with
  | nil => simp [HMap.insert, HMap.values]
  | cons kv rest ih =>
      obtain ⟨k', v'⟩ := kv
      simp only [HMap.insert]
      split
      · simp [HMap.values]
      · simp only [HMap.values, List.map_cons, List.mem_cons]
        exact Or.inr ih

/-- Unfolding of `Property.has_required_attributes` into a proposition. -/
theorem property_required_iff (p : Property) :
    p.has_required_attributes = true ↔
      (p.name.isSome = true ∧ p.datatype.isSome = true) := by
  simp [Property.has_required_attributes]

/-- Unfolding of `Node.has_required_attributes` into a proposition. -/
theorem node_required_iff (n : Node) :
    n.has_required_attributes = true ↔
      (n.name.isSome = true ∧ n.node_type.isSome = true ∧ n.properties ≠ [] ∧
        ∀ p ∈ n.properties.values, p.has_required_attributes = true) := by
  simp only [Node.has_required_attributes, Bool.and_eq_true, Bool.not_eq_true',
    List.all_eq_true, and_assoc]
  constructor
  · rintro ⟨h1, h2, h3, h4⟩
    refine ⟨h1, h2, ?_, h4⟩
    intro hnil
    rw [hnil] at h3
    simp [HMap.is_empty] at h3
  · rintro ⟨h1, h2, h3, h4⟩
    refine ⟨h1, h2, ?_, h4⟩
    cases hm : n.properties with
    | nil => exact absurd hm h3
    | cons a rest => simp [HMap.is_empty]

/-- Unfolding of `Device.has_required_attributes` into a proposition. -/
theorem device_required_iff (d : Device) :
    d.has_required_attributes = true ↔
      (d.name.isSome = true ∧ d.state ≠ State.Unknown ∧
        ∀ n ∈ d.nodes.values, n.has_required_attributes = true) := by
  simp [Device.has_required_attributes, Bool.and_eq_true, bne_iff_ne,
    List.all_eq_true, and_assoc]

end Homie

open Homie

/-! ### Claim theorems -/

/-- C6: for every `id` and `homie_version`, `Device::new` yields a device
with state `Unknown`, empty nodes map, empty extensions list, every optional
field `None`, and consequently `has_required_attributes()` false. -/
theorem claim_C6_device_new_empty (id homie_version : String) :
    (Device.new id homie_version).state = State.Unknown ∧
    (Device.new id homie_version).nodes = [] ∧
    (Device.new id homie_version).extensions = [] ∧
    (Device.new id homie_version).name = none ∧
    (Device.new id homie_version).implementation = none ∧
    (Device.new id homie_version).local_ip = none ∧
    (Device.new id homie_version).mac = none ∧
    (Device.new id homie_version).firmware_name = none ∧
    (Device.new id homie_version).firmware_version = none ∧
    (Device.new id homie_version).stats_interval = none ∧
    (Device.new id homie_version).stats_uptime = none ∧
    (Device.new id homie_version).stats_signal = none ∧
    (Device.new id homie_version).stats_cputemp = none ∧
    (Device.new id homie_version).stats_cpuload = none ∧
    (Device.new id homie_version).stats_battery = none ∧
    (Device.new id homie_version).stats_freeheap = none ∧
    (Device.new id homie_version).stats_supply = none ∧
    (Device.new id homie_version).has_required_attributes = false :=
  ⟨rfl, rfl, rfl, rfl, rfl, rfl, rfl, rfl, rfl, rfl, rfl, rfl, rfl, rfl, rfl,
    rfl, rfl, rfl⟩

/-- C8: for every `id`, `Property::new` yields a property with `settable`
false, `retained` true, and `name`, `datatype`, `unit`, `format`, `value`
all `None`; consequently it fails `has_required_attributes()`. -/
theorem claim_C8_property_new_defaults (id : String) :
    (Property.new id).settable = false ∧
    (Property.new id).retained = true ∧
    (Property.new id).name = none ∧
    (Property.new id).datatype = none ∧
    (Property.new id).unit = none ∧
    (Property.new id).format = none ∧
    (Property.new id).value = none ∧
    (Property.new id).has_required_attributes = false :=
  ⟨rfl, rfl, rfl, rfl, rfl, rfl, rfl, rfl⟩

/-- C2: `State` parsing succeeds exactly on the six literal tokens `init`,
`ready`, `disconnected`, `sleeping`, `lost`, `alert` (case-sensitively,
mapping each to its variant) and fails with a `ParseStateError` carrying the
input on every other string, including `"unknown"`. -/
theorem claim_C2_state_from_str :
    State.from_str "init" = .ok State.Init ∧
    State.from_str "ready" = .ok State.Ready ∧
    State.from_str "disconnected" = .ok State.Disconnected ∧
    State.from_str "sleeping" = .ok State.Sleeping ∧
    State.from_str "lost" = .ok State.Lost ∧
    State.from_str "alert" = .ok State.Alert ∧
    (∀ s : String, s ≠ "init" → s ≠ "ready" → s ≠ "disconnected" →
      s ≠ "sleeping" → s ≠ "lost" → s ≠ "alert" →
      State.from_str s = .error ⟨s⟩) ∧
    State.from_str "unknown" = .error ⟨"unknown"⟩ := by
  refine ⟨rfl, rfl, rfl, rfl, rfl, rfl, ?_, rfl⟩
  intro s h1 h2 h3 h4 h5 h6
  simp [State.from_str, h1, h2, h3, h4, h5, h6]

/-- C7: `Datatype` parsing succeeds exactly on the six lowercase tokens
`integer`, `float`, `boolean`, `string`, `enum`, `color` (mapping each to
its variant of the closed enumeration) and fails with a `ParseDatatypeError`
carrying the input on every other string. -/
theorem claim_C7_datatype_from_str :
    Datatype.from_str "integer" = .ok Datatype.Integer ∧
    Datatype.from_str "float" = .ok Datatype.Float ∧
    Datatype.from_str "boolean" = .ok Datatype.Boolean ∧
    Datatype.from_str "string" = .ok Datatype.String ∧
    Datatype.from_str "enum" = .ok Datatype.Enum ∧
    Datatype.from_str "color" = .ok Datatype.Color ∧
    (∀ s : String, s ≠ "integer" → s ≠ "float" → s ≠ "boolean" →
      s ≠ "string" → s ≠ "enum" → s ≠ "color" →
      Datatype.from_str s = .error ⟨s⟩) := by
  refine ⟨rfl, rfl, rfl, rfl, rfl, rfl, ?_⟩
  intro s h1 h2 h3 h4 h5 h6
  simp [Datatype.from_str, h1, h2, h3, h4, h5, h6]

/-- C5: a `Node` satisfies `has_required_attributes()` iff its `name` and
`node_type` are set, its properties map is non-empty and every property in
it is complete; a `Property` is complete iff its `name` and `datatype` are
both set. -/
theorem claim_C5_node_completeness :
    (∀ n : Node, n.has_required_attributes = true ↔
      (n.name.isSome = true ∧ n.node_type.isSome = true ∧
        n.properties ≠ [] ∧
        ∀ p ∈ n.properties.values, p.has_required_attributes = true)) ∧
    (∀ p : Property, p.has_required_attributes = true ↔
      (p.name.isSome = true ∧ p.datatype.isSome = true)) :=
  ⟨node_required_iff, property_required_iff⟩

/-- C1: a `Device` satisfies `has_required_attributes()` iff its `name` is
set, its `state` is not `Unknown` and every node in its map satisfies
`Node::has_required_attributes()`; in particular inserting an incomplete
node into a complete device makes the predicate false. -/
theorem claim_C1_device_completeness :
    (∀ d : Device, d.has_required_attributes = true ↔
      (d.name.isSome = true ∧ d.state ≠ State.Unknown ∧
        ∀ n ∈ d.nodes.values, n.has_required_attributes = true)) ∧
    (∀ (d : Device) (k : String) (n : Node),
      d.has_required_attributes = true → n.has_required_attributes = false →
      ({ d with nodes := HMap.insert k n d.nodes } :
        Device).has_required_attributes = false) := by
  refine ⟨device_required_iff, ?_⟩
  intro d k n hd hn
  rw [Bool.eq_false_iff]
  intro hc
  have h := (device_required_iff _).1 hc
  have hall := h.2.2 n (HMap.mem_values_insert d.nodes k n)
  rw [hn] at hall
  exact Bool.false_ne_true hall

/-- C9 counterexample: formatting `State::Unknown` yields `"unknown"`, which
`State::from_str` rejects rather than parsing back, so format-then-parse is
not the identity on every `State` value. -/
theorem claim_C9_counterexample :
    State.from_str (State.as_str State.Unknown) = .error ⟨"unknown"⟩ := rfl

/-- C9 (amended): for every `State` other than `Unknown`, formatting then
parsing returns `Ok` of the same state, and for every string the parser
accepts, formatting the result reproduces the string. -/
theorem claim_C9_state_roundtrip :
    (∀ s : State, s ≠ State.Unknown → State.from_str s.as_str = .ok s) ∧
    (∀ (str : String) (s : State), State.from_str str = .ok s →
      s.as_str = str) := by
  constructor
  · intro s hs
    cases s with
    | Unknown => exact absurd rfl hs
    | Init => rfl
    | Ready => rfl
    | Disconnected => rfl
    | Sleeping => rfl
    | Lost => rfl
    | Alert => rfl
  · intro str s h
    simp only [State.from_str] at h
    split_ifs at h with h1 h2 h3 h4 h5 h6 <;>
      (injection h with h'; subst h'; subst_vars; rfl)

/-- C3: every string of the form `id:version:[interior]` whose three pieces
are colon-free parses to an `Extension` whose `homie_versions` is the
interior split on `;`, and joining that list with `;` reproduces the
interior exactly; instantiated at `"a:0:[]"` this yields the one-element
list containing the empty string. -/
theorem claim_C3_extension_roundtrip (id ver inner : List Char)
    (h1 : ':' ∉ id) (h2 : ':' ∉ ver) (h3 : ':' ∉ inner) :
    Extension.from_str
        (id ++ ':' :: (ver ++ ':' :: ('[' :: (inner ++ [']'])))) =
      .ok { id := id, version := ver, homie_versions := splitChar ';' inner } ∧
    joinChar ';' (splitChar ';' inner) = inner := by
  constructor
  · have hnc : ':' ∉ ('[' :: (inner ++ [']'])) := by
      intro hmem
      rcases List.mem_cons.mp hmem with hc | hmem2
      · exact absurd hc (by decide)
      · rcases List.mem_append.mp hmem2 with hm | hm
        · exact h3 hm
        · exact absurd (List.mem_singleton.mp hm) (by decide)
    have hsplit :
        splitChar ':' (id ++ ':' :: (ver ++ ':' :: ('[' :: (inner ++ [']'])))) =
          [id, ver, '[' :: (inner ++ [']'])] := by
      rw [splitChar_append _ h1, splitChar_append _ h2,
        splitChar_of_not_mem hnc]
    simp [Extension.from_str, hsplit, stripPrefixChar, stripSuffixChar]
  · exact joinChar_splitChar ';' inner

/-- C3 witness: the theorem at `"a:0:[]"`, giving `homie_versions = [""]`. -/
theorem claim_C3_extension_roundtrip_witness :
    Extension.from_str ['a', ':', '0', ':', '[', ']'] =
      .ok { id := ['a'], version := ['0'], homie_versions := [[]] } ∧
    joinChar ';' (splitChar ';' ([] : List Char)) = [] :=
  claim_C3_extension_roundtrip ['a'] ['0'] [] (by decide) (by decide)
    (by decide)

/-- C4: `Extension` parsing returns a typed error retaining the unchanged
input for the empty string, for any input whose colon-split has other than
exactly three parts, and for any input whose third part is not bracketed;
and every error it ever returns carries the input unchanged. -/
theorem claim_C4_extension_errors :
    Extension.from_str [] = .error ⟨[]⟩ ∧
    (∀ s : List Char, (splitChar ':' s).length ≠ 3 →
      Extension.from_str s = .error ⟨s⟩) ∧
    (∀ (s a b c : List Char), splitChar ':' s = [a, b, c] →
      (¬ ∃ inner, c = '[' :: (inner ++ [']'])) →
      Extension.from_str s = .error ⟨s⟩) ∧
    (∀ (s : List Char) (e : ParseExtensionError),
      Extension.from_str s = .error e → e.str = s) := by
  refine ⟨rfl, ?_, ?_, ?_⟩
  · intro s hlen
    unfold Extension.from_str
    split
    · rename_i id ver hv heq
      exact absurd (by rw [heq]; rfl) hlen
    · rfl
  · intro s a b c hsplit hnobr
    unfold Extension.from_str
    split
    · rename_i id ver hv heq
      rw [hsplit] at heq
      injection heq with e1 rest
      injection rest with e2 rest2
      injection rest2 with e3 _
      subst e1; subst e2; subst e3
      split
      · rename_i hv1 hp
        split
        · rename_i hv2 hsuf
          exact absurd
            ⟨hv2, by rw [stripPrefixChar_eq_some hp,
              stripSuffixChar_eq_some hsuf]⟩ hnobr
        · rfl
      · rfl
    · rfl
  · intro s e h
    unfold Extension.from_str at h
    split at h
    · split at h
      · split at h
        · exact Except.noConfusion h
        · injection h with h'; rw [← h']
      · injection h with h'; rw [← h']
    · injection h with h'; rw [← h']

/-- C10: whenever `Extension` parsing succeeds, the resulting
`homie_versions` list is non-empty, because splitting any string on `;`
yields at least one (possibly empty) segment. -/
theorem claim_C10_homie_versions_ne_nil (s : List Char) (e : Extension)
    (h : Extension.from_str s = .ok e) : e.homie_versions ≠ [] := by
  unfold Extension.from_str at h
  split at h
  · split at h
    · split at h
      · rename_i hv2 hsuf
        injection h with h'
        subst h'
        exact splitChar_ne_nil ';' hv2
      · exact Except.noConfusion h
    · exact Except.noConfusion h
  · exact Except.noConfusion h

/-- C10 witness: the theorem at `"a:0:[]"`. -/
theorem claim_C10_homie_versions_ne_nil_witness :
    (Extension.mk ['a'] ['0'] [[]]).homie_versions ≠ [] :=
  claim_C10_homie_versions_ne_nil ['a', ':', '0', ':', '[', ']']
    ⟨['a'], ['0'], [[]]⟩ rfl
